import Mathlib

/-!
Verification development for the diveplanner Bühlmann ZH-L16 core
(packages helpers, gasmix and buhlmann).

Embedding conventions:
* Go float64 values are embedded as real numbers; float literals become the
  exact rational constants written in the source.
* math.Pow(math.E, x) is embedded as Real.exp x and math.Log as Real.log.
* Go float division is total but yields NaN or an infinity when the divisor
  is zero; where a claim depends on that behaviour the quotient is embedded
  as an Option value that is none exactly when the divisor is zero.
* The two unbounded while loops of decompStopLengths take an explicit fuel
  argument; the GetNDL loop is intrinsically bounded and needs none.
* Pointer-typed fields: the coefs field of the Go struct always points at
  compartCoefSets[ccs], so it is embedded as a lookup through the ccs tag;
  compartment arrays are embedded as functions from Fin 16.
-/

namespace DivePlanner

/-! ### Coefficient table (buhlmann.go, compartCoefs / compartCoefSets)

The table entries are exact rationals, kept in ℚ so that facts about the
constants are decidable; they are cast to ℝ at their use sites. -/

/-- Number of compartments in each ZH-L model (buhlmann.go, compartCount). -/
abbrev compartCount : ℕ := 16

/-- One row of the coefficient table (buhlmann.go, compartCoefs). -/
structure compartCoefs where
  n : ℕ
  n2Ht : ℚ
  n2A : ℚ
  n2B : ℚ
  heHt : ℚ
  heA : ℚ
  heB : ℚ
deriving DecidableEq

/-- The three coefficient set variants (buhlmann.go, compartCoefSet). -/
inductive compartCoefSet where
  | ZHL16A
  | ZHL16B
  | ZHL16C
deriving DecidableEq

export compartCoefSet (ZHL16A ZHL16B ZHL16C)

/-- The ZH-L16A rows of compartCoefSets (buhlmann.go lines 55-71). -/
def zhl16aCoefs : Fin compartCount → compartCoefs :=
  ![⟨1, 4.0, 1.2599, 0.5050, 1.5, 1.7435, 0.1911⟩,
    ⟨2, 8.0, 1.0000, 0.6514, 3.0, 1.3838, 0.4295⟩,
    ⟨3, 12.5, 0.8618, 0.7222, 4.7, 1.1925, 0.5446⟩,
    ⟨4, 18.5, 0.7562, 0.7725, 7.0, 1.0465, 0.6265⟩,
    ⟨5, 27.0, 0.6667, 0.8125, 10.2, 0.9226, 0.6917⟩,
    ⟨6, 38.3, 0.5933, 0.8434, 14.5, 0.8211, 0.7420⟩,
    ⟨7, 54.3, 0.5282, 0.8693, 20.5, 0.7309, 0.7841⟩,
    ⟨8, 77.0, 0.4701, 0.8910, 29.1, 0.6506, 0.8195⟩,
    ⟨9, 109.0, 0.4187, 0.9092, 41.1, 0.5794, 0.8491⟩,
    ⟨10, 146.0, 0.3798, 0.9222, 55.1, 0.5256, 0.8703⟩,
    ⟨11, 187.0, 0.3497, 0.9319, 70.6, 0.4840, 0.8860⟩,
    ⟨12, 239.0, 0.3223, 0.9403, 90.2, 0.4460, 0.8997⟩,
    ⟨13, 305.0, 0.2971, 0.9477, 115.1, 0.4112, 0.9118⟩,
    ⟨14, 390.0, 0.2737, 0.9544, 147.2, 0.3788, 0.9226⟩,
    ⟨15, 498.0, 0.2523, 0.9602, 187.9, 0.3492, 0.9321⟩,
    ⟨16, 635.0, 0.2327, 0.9653, 239.6, 0.3220, 0.9404⟩]

/-- The ZH-L16B rows of compartCoefSets (buhlmann.go lines 72-89). -/
def zhl16bCoefs : Fin compartCount → compartCoefs :=
  ![⟨1, 4.0, 1.2599, 0.5240, 1.51, 1.6189, 0.4245⟩,
    ⟨2, 8.0, 1.0000, 0.6514, 3.02, 1.3830, 0.5747⟩,
    ⟨3, 12.5, 0.8618, 0.7222, 4.72, 1.1919, 0.6527⟩,
    ⟨4, 18.5, 0.7562, 0.7825, 6.99, 1.0458, 0.7223⟩,
    ⟨5, 27.0, 0.6667, 0.8126, 10.21, 0.9220, 0.7582⟩,
    ⟨6, 38.3, 0.5505, 0.8434, 14.48, 0.8205, 0.7957⟩,
    ⟨7, 54.3, 0.4858, 0.8693, 20.53, 0.7305, 0.8279⟩,
    ⟨8, 77.0, 0.4443, 0.8910, 29.11, 0.6502, 0.8553⟩,
    ⟨9, 109.0, 0.4187, 0.9092, 41.20, 0.5950, 0.8757⟩,
    ⟨10, 146.0, 0.3798, 0.9222, 55.19, 0.5545, 0.8903⟩,
    ⟨11, 187.0, 0.3497, 0.9319, 70.69, 0.5333, 0.8997⟩,
    ⟨12, 239.0, 0.3223, 0.9403, 90.34, 0.5189, 0.9073⟩,
    ⟨13, 305.0, 0.2828, 0.9477, 115.29, 0.5181, 0.9122⟩,
    ⟨14, 390.0, 0.2737, 0.9544, 147.42, 0.5176, 0.9171⟩,
    ⟨15, 498.0, 0.2523, 0.9602, 188.24, 0.5172, 0.9217⟩,
    ⟨16, 635.0, 0.2327, 0.9653, 240.03, 0.5119, 0.9267⟩]

/-- The ZH-L16C rows of compartCoefSets (buhlmann.go lines 89-106). -/
def zhl16cCoefs : Fin compartCount → compartCoefs :=
  ![⟨1, 4.0, 1.2599, 0.5240, 1.51, 1.6189, 0.4245⟩,
    ⟨2, 8.0, 1.0000, 0.6514, 3.02, 1.3830, 0.5747⟩,
    ⟨3, 12.5, 0.8618, 0.7222, 4.72, 1.1919, 0.6527⟩,
    ⟨4, 18.5, 0.7562, 0.7825, 6.99, 1.0458, 0.7223⟩,
    ⟨5, 27.0, 0.6667, 0.8126, 10.21, 0.9220, 0.7582⟩,
    ⟨6, 38.3, 0.5600, 0.8434, 14.48, 0.8205, 0.7957⟩,
    ⟨7, 54.3, 0.4947, 0.8693, 20.53, 0.7305, 0.8279⟩,
    ⟨8, 77.0, 0.4500, 0.8910, 29.11, 0.6502, 0.8553⟩,
    ⟨9, 109.0, 0.4187, 0.9092, 41.20, 0.5950, 0.8757⟩,
    ⟨10, 146.0, 0.3798, 0.9222, 55.19, 0.5545, 0.8903⟩,
    ⟨11, 187.0, 0.3497, 0.9319, 70.69, 0.5333, 0.8997⟩,
    ⟨12, 239.0, 0.3223, 0.9403, 90.34, 0.5189, 0.9073⟩,
    ⟨13, 305.0, 0.2850, 0.9477, 115.29, 0.5181, 0.9122⟩,
    ⟨14, 390.0, 0.2737, 0.9544, 147.42, 0.5176, 0.9171⟩,
    ⟨15, 498.0, 0.2523, 0.9602, 188.24, 0.5172, 0.9217⟩,
    ⟨16, 635.0, 0.2327, 0.9653, 240.03, 0.5119, 0.9267⟩]

/-- The full table (buhlmann.go, compartCoefSets), indexed by variant. -/
def compartCoefSets : compartCoefSet → Fin compartCount → compartCoefs
  | ZHL16A => zhl16aCoefs
  | ZHL16B => zhl16bCoefs
  | ZHL16C => zhl16cCoefs

/-- The gas mix categories (gasmix.go, MixType). -/
inductive MixType where
  | Unknown
  | Air
  | Heliox
  | Nitrox
  | Trimix
deriving DecidableEq

noncomputable section
open Classical

/-! ### helpers/helpers.go -/

/-- Depth() calculates the depth in metres for a given pressure in bar
(helpers.go lines 13-15). -/
def Depth (pressure : ℝ) : ℝ :=
  (pressure - 1) * 10

/-- Pressure() calculates the pressure in bar for a given depth in metres
(helpers.go lines 18-20). -/
def Pressure (depth : ℝ) : ℝ :=
  depth / 10 + 1

/-! ### gasmix/gasmix.go -/

/-- A breathing gas mixture (gasmix.go, GasMix). -/
structure GasMix where
  FHe : ℝ
  FN2 : ℝ
  FO2 : ℝ

/-- NewAirMix() (gasmix.go lines 45-47); the omitted FHe field takes the Go
zero value 0. -/
def NewAirMix : GasMix :=
  { FHe := 0, FN2 := 0.79, FO2 := 0.21 }

/-- MixType() classifies the gas mix (gasmix.go lines 117-134). The final
Unknown is the fallthrough return at the end of the Go function, reached
for example when FHe is positive and FN2 negative, or FHe negative. -/
def GasMix.mixType (gm : GasMix) : MixType :=
  if gm.FO2 = 0.21 ∧ gm.FN2 = 0.79 ∧ gm.FHe = 0 then .Air
  else if gm.FHe > 0 then
    if gm.FN2 = 0 then .Heliox
    else if gm.FN2 > 0 then .Trimix
    else .Unknown
  else if gm.FHe = 0 then .Nitrox
  else .Unknown

/-- PPHe() (gasmix.go lines 158-163). Note that the body multiplies by FO2,
not FHe; the embedding reproduces the source as written. -/
def GasMix.PPHe (gm : GasMix) (depth : ℝ) : ℝ :=
  Pressure |depth| * gm.FO2

/-- PPN2() (gasmix.go lines 167-172). -/
def GasMix.PPN2 (gm : GasMix) (depth : ℝ) : ℝ :=
  Pressure |depth| * gm.FN2

/-- PPO2() (gasmix.go lines 176-181). -/
def GasMix.PPO2 (gm : GasMix) (depth : ℝ) : ℝ :=
  Pressure |depth| * gm.FO2

/-! ### buhlmann/buhlmann.go: model state -/

/-- Atmospheric pressure in bar at sea level (buhlmann.go, atmPressure). -/
def atmPressure : ℝ := 1

/-- Partial pressure of water vapour in the lungs in bar (buhlmann.go, pH2O). -/
def pH2O : ℝ := 0.06266

/-- Pressures of Helium and Nitrogen in one tissue compartment
(buhlmann.go, compartModel). -/
structure compartModel where
  pHe : ℝ
  pN2 : ℝ

/-- The model state (buhlmann.go, ZhlModel). The Go coefs field always holds
the pointer &compartCoefSets[ccs], so the embedding recovers the row set as
compartCoefSets ccs instead of storing it. -/
structure ZhlModel where
  ccs : compartCoefSet
  compartments : Fin compartCount → compartModel
  currP : ℝ
  currT : ℝ
  gasMix : GasMix

/-- New() constructs an initialised model (buhlmann.go lines 128-146). -/
def New (gm : GasMix) (ccs : compartCoefSet) : ZhlModel :=
  { ccs := ccs
    compartments := fun _ => { pHe := 0, pN2 := 0.79 * (1 - pH2O) }
    currP := atmPressure
    currT := 0
    gasMix := gm }

/-- copyModel() returns a deep copy: a fresh compartment array whose entries
are rebuilt field by field, and copies of all scalar fields
(buhlmann.go lines 151-169). -/
def copyModel (m : ZhlModel) : ZhlModel :=
  { ccs := m.ccs
    compartments := fun i =>
      { pHe := (m.compartments i).pHe, pN2 := (m.compartments i).pN2 }
    currP := m.currP
    currT := m.currT
    gasMix := m.gasMix }

/-- pulmonaryPPHe() (buhlmann.go lines 174-176). The source passes the
ambient pressure as the depth argument of GasMix.PPHe. -/
def pulmonaryPPHe (m : ZhlModel) (ambPressure : ℝ) : ℝ :=
  (ambPressure - pH2O) * m.gasMix.PPHe ambPressure

/-- pulmonaryPPN2() (buhlmann.go lines 181-183). The body is identical to
pulmonaryPPHe and in particular calls gasMix.PPHe, not gasMix.PPN2. -/
def pulmonaryPPN2 (m : ZhlModel) (ambPressure : ℝ) : ℝ :=
  (ambPressure - pH2O) * m.gasMix.PPHe ambPressure

/-! ### Gas exchange engine -/

/-- The Schreiner equation (buhlmann.go lines 192-202); math.Pow(math.E, x)
is exactly exp x. -/
def schreinerEquation (pamb t prate fig pi ht : ℝ) : ℝ :=
  let palv := (pamb - pH2O) * fig
  let k := Real.log 2 / ht
  let r := prate * fig
  palv + r * (t - 1 / k) - (palv - pi - r / k) * Real.exp (-k * t)

/-! ### Transition and stop operations -/

/-- The signed pressure change rate in bar per minute computed at the top of
TransitionCalc (buhlmann.go lines 208-214). -/
def transitionPRate (m : ZhlModel) (depth rate : ℝ) : ℝ :=
  let nextP := Pressure depth
  let pRate := rate / 10
  if nextP < m.currP ∧ rate ≥ 0 then -pRate else pRate

/-- The transition duration (nextP - currP) / pRate of buhlmann.go line 216,
with the real-division convention x / 0 = 0. -/
def transitionTime (m : ZhlModel) (depth rate : ℝ) : ℝ :=
  (Pressure depth - m.currP) / transitionPRate m depth rate

/-- The transition duration as the Go float division delivers it: when the
divisor transitionPRate is zero the Go quotient is NaN (0 / 0) or an
infinity, never a real number; that outcome is embedded as none. -/
def transitionTimeChecked (m : ZhlModel) (depth rate : ℝ) : Option ℝ :=
  if transitionPRate m depth rate = 0 then none
  else some (transitionTime m depth rate)

/-- TransitionCalc() (buhlmann.go lines 206-229). Each loop iteration reads
the compartment values saved before its own write, so the functional update
below is exact. -/
def TransitionCalc (m : ZhlModel) (depth rate : ℝ) : ZhlModel :=
  let nextP := Pressure depth
  let pRate := transitionPRate m depth rate
  let time := transitionTime m depth rate
  { m with
    compartments := fun i =>
      { pHe := schreinerEquation m.currP time pRate m.gasMix.FHe
          (m.compartments i).pHe ((compartCoefSets m.ccs i).heHt : ℝ)
        pN2 := schreinerEquation m.currP time pRate m.gasMix.FN2
          (m.compartments i).pN2 ((compartCoefSets m.ccs i).n2Ht : ℝ) }
    currP := nextP
    currT := m.currT + |time| }

/-- StopCalc() (buhlmann.go lines 234-246): prate is zero, ambient pressure
is unchanged and elapsed time grows by the absolute duration. -/
def StopCalc (m : ZhlModel) (time : ℝ) : ZhlModel :=
  { m with
    compartments := fun i =>
      { pHe := schreinerEquation m.currP time 0 m.gasMix.FHe
          (m.compartments i).pHe ((compartCoefSets m.ccs i).heHt : ℝ)
        pN2 := schreinerEquation m.currP time 0 m.gasMix.FN2
          (m.compartments i).pN2 ((compartCoefSets m.ccs i).n2Ht : ℝ) }
    currT := m.currT + |time| }

/-! ### Ascent ceiling -/

/-- The largest finite float64, 2^1024 - 2^971; the loop accumulator of
ascentCeiling starts at its negation (buhlmann.go line 253). -/
def maxFloat64 : ℝ := 2 ^ 1024 - 2 ^ 971

/-- The per-compartment tolerated pressure computed inside the loop of
ascentCeiling (buhlmann.go lines 255-268), including the coefficient pair
selection on the mix type. -/
def compartmentCeiling (m : ZhlModel) (i : Fin compartCount) : ℝ :=
  let a : ℝ := if m.gasMix.mixType = MixType.Heliox
    then ((compartCoefSets m.ccs i).heA : ℝ) else ((compartCoefSets m.ccs i).n2A : ℝ)
  let b : ℝ := if m.gasMix.mixType = MixType.Heliox
    then ((compartCoefSets m.ccs i).heB : ℝ) else ((compartCoefSets m.ccs i).n2B : ℝ)
  (((m.compartments i).pHe + (m.compartments i).pN2) - a) * b

/-- ascentCeiling() (buhlmann.go lines 252-271): fold math.Max over the 16
compartments starting from -maxFloat64, then convert to a depth. -/
def ascentCeiling (m : ZhlModel) : ℝ :=
  Depth ((List.finRange compartCount).foldl
    (fun acc i => max acc (compartmentCeiling m i)) (-maxFloat64))

/-- firstDecompStop() (buhlmann.go lines 277-279): the ceiling depth divided
by three, rounded up with math.Ceil, times three. -/
def firstDecompStop (m : ZhlModel) : ℝ :=
  (⌈ascentCeiling m / 3⌉ : ℝ) * 3

/-! ### NDL search -/

/-- The n-fold application of StopCalc with one-minute steps; used to state
properties of the NDL loop. -/
def iterStop : ZhlModel → ℕ → ZhlModel
  | s, 0 => s
  | s, n + 1 => iterStop (StopCalc s 1) n

/-- The loop of GetNDL (buhlmann.go lines 296-302). The Go loop runs the
index i from 0 while i <= 60; fuel counts the iterations still allowed, and
i is the current index. Besides the returned value the pair also carries the
number of StopCalc(1) calls performed, so that the iteration cost of the
loop can be stated. On fuel exhaustion the function returns 60, the value of
the return statement after the loop (buhlmann.go line 304). -/
def ndlAux : ZhlModel → ℕ → ℕ → ℕ × ℕ
  | _, 0, _ => (60, 0)
  | s, fuel + 1, i =>
    let s1 := StopCalc s 1
    if ascentCeiling s1 > 0 then (i, 1)
    else
      let p := ndlAux s1 fuel (i + 1)
      (p.1, p.2 + 1)

/-- GetNDL() (buhlmann.go lines 286-305). maxNDL is 60 and the loop runs
i = 0, 1, ..., 60, hence 61 iterations are allowed. -/
def GetNDL (m : ZhlModel) : ℕ :=
  if m.currT = 0 then 60
  else (ndlAux (copyModel m) 61 0).1

/-- The number of StopCalc(1) calls GetNDL performs. -/
def getNDLStopCount (m : ZhlModel) : ℕ :=
  if m.currT = 0 then 0
  else (ndlAux (copyModel m) 61 0).2

/-! ### Decompression schedule planner

The inner dwell loop of decompStopLengths has no iteration cap in the
source, and the outer loop steps a real-valued counter, so both take an
explicit fuel argument in the embedding. -/

/-- The inner dwell loop of decompStopLengths (buhlmann.go lines 341-346):
while ac >= nextStop, stop a minute, recompute ac and count. Returns the
mutated model and the count. -/
def decompInner : ZhlModel → ℝ → ℝ → ℕ → ℕ → ZhlModel × ℕ
  | model, _, _, 0, n => (model, n)
  | model, ac, nextStop, fuel + 1, n =>
    if ac ≥ nextStop then
      let m1 := StopCalc model 1
      decompInner m1 (ascentCeiling m1) nextStop fuel (n + 1)
    else (model, n)

/-- The outer candidate-stop loop of decompStopLengths (buhlmann.go lines
324-349): currStop descends from firstStop in steps of 3 while at least
lastStop = 3. A stop whose post-transition ceiling is already shallower
than the next stop is skipped (the continue branch). -/
def decompOuter : ZhlModel → ℝ → ℝ → ℕ → ℕ → List ℕ → List ℕ × ZhlModel
  | model, _, _, 0, _, stops => (stops, model)
  | model, currStop, aRate, ofuel + 1, ifuel, stops =>
    if currStop ≥ 3 then
      let m1 := TransitionCalc model currStop aRate
      let nextStop := currStop - 3
      let ac := ascentCeiling m1
      if ac < nextStop then decompOuter m1 (currStop - 3) aRate ofuel ifuel stops
      else
        let p := decompInner m1 ac nextStop ifuel 0
        decompOuter p.1 (currStop - 3) aRate ofuel ifuel (stops ++ [p.2])
    else (stops, model)

/-- decompStopLengths() (buhlmann.go lines 314-352): read firstStop from the
receiver, make a deep copy, run the candidate-stop loop on the copy. -/
def decompStopLengths (m : ZhlModel) (aRate : ℝ) (ofuel ifuel : ℕ) : List ℕ :=
  (decompOuter (copyModel m) (firstDecompStop m) aRate ofuel ifuel []).1

/-! ### Heap-level view of decompStopLengths

The Go receiver and the private clone are separate heap objects; the clone
is produced by copyModel with a freshly allocated compartment array, and
every mutating call inside decompStopLengths is addressed at the clone.
To state the frame property of claim C1 the relevant heap fragment is made
explicit: a list of ZhlModel cells addressed by their index, with the clone
allocated by appending a new cell. -/

/-- A placeholder model for out-of-range heap reads. -/
def emptyModel : ZhlModel :=
  { ccs := ZHL16A
    compartments := fun _ => { pHe := 0, pN2 := 0 }
    currP := 0
    currT := 0
    gasMix := { FHe := 0, FN2 := 0, FO2 := 0 } }

/-- Read the heap cell at an address. -/
def hGet (h : List ZhlModel) (a : ℕ) : ZhlModel :=
  h.getD a emptyModel

/-- model.StopCalc(t) through the pointer at address a. -/
def stopCalcH (h : List ZhlModel) (a : ℕ) (t : ℝ) : List ZhlModel :=
  h.set a (StopCalc (hGet h a) t)

/-- model.TransitionCalc(depth, rate) through the pointer at address a. -/
def transitionCalcH (h : List ZhlModel) (a : ℕ) (depth rate : ℝ) : List ZhlModel :=
  h.set a (TransitionCalc (hGet h a) depth rate)

/-- The inner dwell loop acting on the heap cell at address adr. -/
def decompInnerH : List ZhlModel → ℕ → ℝ → ℝ → ℕ → ℕ → List ZhlModel × ℕ
  | h, _, _, _, 0, n => (h, n)
  | h, adr, ac, nextStop, fuel + 1, n =>
    if ac ≥ nextStop then
      let h1 := stopCalcH h adr 1
      decompInnerH h1 adr (ascentCeiling (hGet h1 adr)) nextStop fuel (n + 1)
    else (h, n)

/-- The outer candidate-stop loop acting on the heap cell at address adr. -/
def decompOuterH : List ZhlModel → ℕ → ℝ → ℝ → ℕ → ℕ → List ℕ → List ℕ × List ZhlModel
  | h, _, _, _, 0, _, stops => (stops, h)
  | h, adr, currStop, aRate, ofuel + 1, ifuel, stops =>
    if currStop ≥ 3 then
      let h1 := transitionCalcH h adr currStop aRate
      let nextStop := currStop - 3
      let ac := ascentCeiling (hGet h1 adr)
      if ac < nextStop then decompOuterH h1 adr (currStop - 3) aRate ofuel ifuel stops
      else
        let p := decompInnerH h1 adr ac nextStop ifuel 0
        decompOuterH p.1 adr (currStop - 3) aRate ofuel ifuel (stops ++ [p.2])
    else (stops, h)

/-- decompStopLengths() on the explicit heap: the receiver lives at address
a; firstStop is read from it, then the clone m.copyModel() is allocated as a
new cell at address h.length and the loop runs addressed at the clone. The
returned heap is the heap after the call. -/
def decompStopLengthsH (h : List ZhlModel) (a : ℕ) (aRate : ℝ) (ofuel ifuel : ℕ) :
    List ℕ × List ZhlModel :=
  let m := hGet h a
  let firstStop := firstDecompStop m
  let h1 := h ++ [copyModel m]
  decompOuterH h1 h.length firstStop aRate ofuel ifuel []

/-! ### Distinguished states used by concrete evaluations -/

/-- A model at the surface breathing air with the initial compartment
loadings: the state of a fresh air model regardless of its elapsed time. -/
def surfaceAirState (s : ZhlModel) : Prop :=
  s.compartments = (fun _ => { pHe := 0, pN2 := 0.79 * (1 - pH2O) }) ∧
  s.currP = 1 ∧ s.gasMix = NewAirMix

/-- A fresh air model whose elapsed time has been set to 5 minutes, so that
GetNDL does not take the zero-time early return. -/
def ndlCounterModel : ZhlModel :=
  { New NewAirMix ZHL16A with currT := 5 }

/-! ### Spec-side definitions (for the refinement claims) -/

/-- The per-compartment tolerated pressure as the spec words it: compute
((pHe + pN2) - a) x b, the Helium-based pair being selected only for a
Heliox classification. -/
def specTolerated (m : ZhlModel) (i : Fin compartCount) : ℝ :=
  (((m.compartments i).pHe + (m.compartments i).pN2) -
      (if m.gasMix.mixType = MixType.Heliox
        then ((compartCoefSets m.ccs i).heA : ℝ)
        else ((compartCoefSets m.ccs i).n2A : ℝ))) *
    (if m.gasMix.mixType = MixType.Heliox
      then ((compartCoefSets m.ccs i).heB : ℝ)
      else ((compartCoefSets m.ccs i).n2B : ℝ))

/-- The ascent ceiling as the spec words it: the maximum of the tolerated
pressures over all 16 compartments, converted to a depth by
depth = (pressure - 1) x 10. -/
def specAscentCeiling (m : ZhlModel) : ℝ :=
  (Finset.univ.sup' Finset.univ_nonempty (specTolerated m) - 1) * 10

end

/-! ## Basic lemmas -/

/-- The deep copy is value-identical to its source. -/
theorem copyModel_eq (m : ZhlModel) : copyModel m = m := rfl

/-- The initial accumulator never exceeds a running-max fold. -/
theorem init_le_foldl_max {α : Type} (f : α → ℝ) :
    ∀ (l : List α) (e : ℝ), e ≤ l.foldl (fun acc i => max acc (f i)) e := by
  intro l
  induction l with
  | nil => intro e; exact le_refl e
  | cons x t ih =>
    intro e
    simp only [List.foldl_cons]
    exact le_trans (le_max_left e (f x)) (ih (max e (f x)))

/-- Every listed value bounds a running-max fold from below. -/
theorem mem_le_foldl_max {α : Type} (f : α → ℝ) :
    ∀ (l : List α) (e : ℝ) (x : α), x ∈ l →
      f x ≤ l.foldl (fun acc i => max acc (f i)) e := by
  intro l
  induction l with
  | nil => intro e x hx; cases hx
  | cons y t ih =>
    intro e x hx
    simp only [List.foldl_cons]
    rcases List.mem_cons.mp hx with hh | hh
    · subst hh
      exact le_trans (le_max_right e (f x)) (init_le_foldl_max f t _)
    · exact ih _ x hh

/-- A running-max fold stays below any bound on the seed and the values. -/
theorem foldl_max_le {α : Type} (f : α → ℝ) (c : ℝ) :
    ∀ (l : List α) (e : ℝ), e ≤ c → (∀ x ∈ l, f x ≤ c) →
      l.foldl (fun acc i => max acc (f i)) e ≤ c := by
  intro l
  induction l with
  | nil => intro e he _; exact he
  | cons y t ih =>
    intro e he hf
    simp only [List.foldl_cons]
    exact ih _ (max_le he (hf y (List.mem_cons_self y t)))
      fun x hx => hf x (List.mem_cons_of_mem _ hx)

set_option maxHeartbeats 2000000 in
/-- Bounds on every coefficient table entry, checked entry by entry. -/
theorem coefBounds : ∀ (s : compartCoefSet) (i : Fin compartCount),
    0 ≤ (compartCoefSets s i).n2A ∧ (compartCoefSets s i).n2A ≤ 2 ∧
    0 < (compartCoefSets s i).n2B ∧ (compartCoefSets s i).n2B ≤ 1 ∧
    0 ≤ (compartCoefSets s i).heA ∧ (compartCoefSets s i).heA ≤ 2 ∧
    0 < (compartCoefSets s i).heB ∧ (compartCoefSets s i).heB ≤ 1 := by
  intro s i
  cases s <;> fin_cases i <;>
    norm_num [compartCoefSets, zhl16aCoefs, zhl16bCoefs, zhl16cCoefs]

/-- The table bounds transported to ℝ. -/
theorem coefBoundsR (s : compartCoefSet) (i : Fin compartCount) :
    (0:ℝ) ≤ ((compartCoefSets s i).n2A : ℝ) ∧ ((compartCoefSets s i).n2A : ℝ) ≤ 2 ∧
    (0:ℝ) < ((compartCoefSets s i).n2B : ℝ) ∧ ((compartCoefSets s i).n2B : ℝ) ≤ 1 ∧
    (0:ℝ) ≤ ((compartCoefSets s i).heA : ℝ) ∧ ((compartCoefSets s i).heA : ℝ) ≤ 2 ∧
    (0:ℝ) < ((compartCoefSets s i).heB : ℝ) ∧ ((compartCoefSets s i).heB : ℝ) ≤ 1 := by
  obtain ⟨h1, h2, h3, h4, h5, h6, h7, h8⟩ := coefBounds s i
  exact ⟨by exact_mod_cast h1, by exact_mod_cast h2, by exact_mod_cast h3,
    by exact_mod_cast h4, by exact_mod_cast h5, by exact_mod_cast h6,
    by exact_mod_cast h7, by exact_mod_cast h8⟩

/-- The float64 maximum dominates 2. -/
theorem two_le_maxFloat64 : (2:ℝ) ≤ maxFloat64 := by
  have h1 : (2:ℝ)^972 ≤ 2^1024 := by gcongr <;> norm_num
  have h2 : (2:ℝ)^1 ≤ 2^971 := by gcongr <;> norm_num
  have h3 : (2:ℝ)^972 = 2 * 2^971 := by ring
  unfold maxFloat64
  nlinarith

/-- Lower bound on a tolerated pressure when the loading is non-negative. -/
theorem tolerated_lower (s a b : ℝ) (hs : 0 ≤ s) (ha0 : 0 ≤ a) (ha2 : a ≤ 2)
    (hb0 : 0 < b) (hb1 : b ≤ 1) : -2 ≤ (s - a) * b := by
  nlinarith [mul_nonneg hs hb0.le,
    mul_le_mul ha2 hb1 hb0.le (by norm_num : (0:ℝ) ≤ 2)]

/-- Upper bound on a tolerated pressure when the loading stays below 1. -/
theorem tolerated_upper (s a b : ℝ) (hs0 : 0 ≤ s) (hs1 : s ≤ 1) (ha0 : 0 ≤ a)
    (hb0 : 0 < b) (hb1 : b ≤ 1) : (s - a) * b ≤ 1 := by
  nlinarith [mul_nonneg ha0 hb0.le,
    mul_le_mul hs1 hb1 hb0.le (by norm_num : (0:ℝ) ≤ 1)]

/-- With non-negative loadings each tolerated pressure is at least -2,
whichever coefficient pair the mix type selects. -/
theorem specTolerated_lower (m : ZhlModel)
    (h : ∀ i : Fin compartCount,
      0 ≤ (m.compartments i).pHe ∧ 0 ≤ (m.compartments i).pN2)
    (i : Fin compartCount) : -2 ≤ specTolerated m i := by
  have hs : 0 ≤ (m.compartments i).pHe + (m.compartments i).pN2 :=
    add_nonneg (h i).1 (h i).2
  have hb := coefBoundsR m.ccs i
  by_cases hmix : m.gasMix.mixType = MixType.Heliox
  · simp only [specTolerated, if_pos hmix]
    exact tolerated_lower _ _ _ hs hb.2.2.2.2.1 hb.2.2.2.2.2.1
      hb.2.2.2.2.2.2.1 hb.2.2.2.2.2.2.2
  · simp only [specTolerated, if_neg hmix]
    exact tolerated_lower _ _ _ hs hb.1 hb.2.1 hb.2.2.1 hb.2.2.2.1

/-! ## Claim theorems (pulmonary and gas mix helpers) -/

/-- C9: for every model and ambient pressure, pulmonaryPPN2 returns exactly
the value of pulmonaryPPHe; the helper intended to compute the alveolar
Nitrogen pressure reuses the Helium pathway gasMix.PPHe instead of the
Nitrogen fraction. -/
theorem pulmonaryPPN2_eq_pulmonaryPPHe (m : ZhlModel) (ambPressure : ℝ) :
    pulmonaryPPN2 m ambPressure = (ambPressure - pH2O) * m.gasMix.PPHe ambPressure ∧
    pulmonaryPPN2 m ambPressure = pulmonaryPPHe m ambPressure :=
  ⟨rfl, rfl⟩

/-- C10: for every gas mixture and depth, GasMix.PPHe returns exactly the
value of GasMix.PPO2, namely Pressure(|depth|) times FO2; FHe is never
read. -/
theorem ppHe_eq_ppO2 (gm : GasMix) (depth : ℝ) :
    gm.PPHe depth = gm.PPO2 depth ∧
    gm.PPHe depth = Pressure |depth| * gm.FO2 :=
  ⟨rfl, rfl⟩

/-! ## Claim theorems (Schreiner equation) -/

/-- C5: with pressure rate exactly 0 the Schreiner equation equals the
classical exponential form alveolarPressure + (initialPressure -
alveolarPressure) * exp(-k * duration), where alveolarPressure =
(ambientPressureStart - waterVapourPressure) * gasFraction and
k = log 2 / halfTime, for every strictly positive half-time. -/
theorem schreinerEquation_zero_rate (pamb t fig pi ht : ℝ) (h : 0 < ht) :
    schreinerEquation pamb t 0 fig pi ht =
      (pamb - pH2O) * fig +
        (pi - (pamb - pH2O) * fig) * Real.exp (-(Real.log 2 / ht) * t) := by
  simp only [schreinerEquation]
  ring

/-- Witness for C5 at concrete inputs. -/
theorem schreinerEquation_zero_rate_witness :
    (0 : ℝ) < 1 ∧
    schreinerEquation 2 3 0 (1/2) (1/4) 1 =
      (2 - pH2O) * (1/2) +
        (1/4 - (2 - pH2O) * (1/2)) * Real.exp (-(Real.log 2 / 1) * 3) :=
  ⟨by norm_num, schreinerEquation_zero_rate 2 3 (1/2) (1/4) 1 (by norm_num)⟩

/-! ## Claim theorems (fresh model state) -/

/-- C6 (amended): a freshly constructed model has, for every gas mixture and
variant, Helium 0 and Nitrogen 0.79 * (1 - pH2O) in every compartment; that
value is exactly 0.7404986 bar (so approximately 0.74050 bar), the ambient
pressure is 1 atmosphere and the elapsed time is 0. -/
theorem new_initial_state (gm : GasMix) (ccs : compartCoefSet) :
    (∀ i : Fin compartCount,
        ((New gm ccs).compartments i).pHe = 0 ∧
        ((New gm ccs).compartments i).pN2 = 0.79 * (1 - pH2O)) ∧
    (0.79 : ℝ) * (1 - pH2O) = 0.7404986 ∧
    (New gm ccs).currP = atmPressure ∧ atmPressure = 1 ∧
    (New gm ccs).currT = 0 := by
  refine ⟨fun i => ⟨rfl, rfl⟩, ?_, rfl, rfl, rfl⟩
  rw [pH2O]; norm_num

/-- C6 counterexample: the initial Nitrogen loading is exactly 0.7404986
bar, which is further than 0.001 from the 0.74188 bar figure given by the
claim, so the claimed approximation is wrong. -/
theorem new_pN2_not_074188 :
    ((New NewAirMix ZHL16A).compartments 0).pN2 = 0.7404986 ∧
    ¬ |(0.7404986 : ℝ) - 0.74188| ≤ 0.001 := by
  constructor
  · show (0.79 : ℝ) * (1 - pH2O) = 0.7404986
    rw [pH2O]; norm_num
  · rw [show (0.7404986 : ℝ) - 0.74188 = -0.0013814 by norm_num, abs_neg,
      abs_of_nonneg (by norm_num)]
    norm_num

/-! ## Claim theorems (ascent ceiling) -/

/-- C4: for every model state satisfying the data-model invariant of
non-negative compartment loadings, ascentCeiling equals the depth
conversion (pressure - 1) * 10 of the maximum over all 16 compartments of
((pHe + pN2) - a) * b, where the Helium-based coefficient pair is selected
exactly when the gas mixture classifies as Heliox and the Nitrogen-based
pair otherwise. -/
theorem ascentCeiling_eq_spec (m : ZhlModel)
    (h : ∀ i : Fin compartCount,
      0 ≤ (m.compartments i).pHe ∧ 0 ≤ (m.compartments i).pN2) :
    ascentCeiling m = specAscentCeiling m := by
  have hfc : ∀ i, compartmentCeiling m i = specTolerated m i := fun i => rfl
  have key : (List.finRange compartCount).foldl
      (fun acc i => max acc (compartmentCeiling m i)) (-maxFloat64) =
      Finset.univ.sup' Finset.univ_nonempty (specTolerated m) := by
    apply le_antisymm
    · apply foldl_max_le
      · have h0 : -2 ≤ specTolerated m 0 := specTolerated_lower m h 0
        have h1 : specTolerated m 0 ≤
            Finset.univ.sup' Finset.univ_nonempty (specTolerated m) :=
          Finset.le_sup' (specTolerated m) (Finset.mem_univ (0 : Fin compartCount))
        have h2 := two_le_maxFloat64
        linarith
      · intro x _
        rw [hfc x]
        exact Finset.le_sup' _ (Finset.mem_univ x)
    · apply Finset.sup'_le
      intro i _
      rw [← hfc i]
      exact mem_le_foldl_max _ _ _ i (List.mem_finRange i)
  unfold ascentCeiling Depth specAscentCeiling
  rw [key]

/-- Witness for C4 on a fresh air model. -/
theorem ascentCeiling_eq_spec_witness :
    (∀ i : Fin compartCount,
        0 ≤ ((New NewAirMix ZHL16A).compartments i).pHe ∧
        0 ≤ ((New NewAirMix ZHL16A).compartments i).pN2) ∧
    ascentCeiling (New NewAirMix ZHL16A) =
      specAscentCeiling (New NewAirMix ZHL16A) := by
  have hp : ∀ i : Fin compartCount,
      0 ≤ ((New NewAirMix ZHL16A).compartments i).pHe ∧
      0 ≤ ((New NewAirMix ZHL16A).compartments i).pN2 := by
    intro i
    refine ⟨le_refl 0, ?_⟩
    show (0:ℝ) ≤ 0.79 * (1 - pH2O)
    rw [pH2O]; norm_num
  exact ⟨hp, ascentCeiling_eq_spec _ hp⟩

/-! ## Claim theorems (NDL at zero elapsed time) -/

/-- C7: a model whose elapsed time is exactly zero returns GetNDL = 60
through the early return, for any gas mixture and variant. -/
theorem getNDL_zero_time (m : ZhlModel) (h : m.currT = 0) : GetNDL m = 60 := by
  unfold GetNDL
  rw [if_pos h]

/-- Witness for C7 on a freshly built air model. -/
theorem getNDL_zero_time_witness :
    (New NewAirMix ZHL16A).currT = 0 ∧ GetNDL (New NewAirMix ZHL16A) = 60 :=
  ⟨rfl, getNDL_zero_time _ rfl⟩

/-! ## Surface air lemmas -/

/-- The air mix classifies as Air. -/
theorem mixType_air : NewAirMix.mixType = MixType.Air := by
  unfold GasMix.mixType
  rw [if_pos ⟨rfl, rfl, rfl⟩]

/-- With a zero gas fraction and zero initial pressure the Schreiner update
returns zero. -/
theorem schreiner_fig_zero (t ht : ℝ) :
    schreinerEquation 1 t 0 0 0 ht = 0 := by
  simp only [schreinerEquation]
  ring

/-- At the surface the initial Nitrogen loading is a fixed point of the
Schreiner update: the alveolar pressure equals the loading exactly. -/
theorem schreiner_surface_fixed (t ht : ℝ) :
    schreinerEquation 1 t 0 0.79 (0.79 * (1 - pH2O)) ht = 0.79 * (1 - pH2O) := by
  simp only [schreinerEquation]
  ring

/-- A stop of any length leaves a surface air state a surface air state. -/
theorem stopCalc_surface (s : ZhlModel) (hs : surfaceAirState s) (t : ℝ) :
    surfaceAirState (StopCalc s t) := by
  obtain ⟨hc, hp, hg⟩ := hs
  refine ⟨?_, hp, hg⟩
  funext i
  simp only [StopCalc, hc, hp, hg, NewAirMix]
  rw [schreiner_fig_zero, schreiner_surface_fixed]

/-- The ascent ceiling of a surface air state is never positive. -/
theorem ascentCeiling_surface_nonpos (s : ZhlModel) (hs : surfaceAirState s) :
    ascentCeiling s ≤ 0 := by
  obtain ⟨hc, hp, hg⟩ := hs
  have hmix : s.gasMix.mixType = MixType.Air := by rw [hg]; exact mixType_air
  have hne : s.gasMix.mixType ≠ MixType.Heliox := by
    rw [hmix]; intro hcontra; exact MixType.noConfusion hcontra
  have hcv0 : (0:ℝ) ≤ 0.79 * (1 - pH2O) := by rw [pH2O]; norm_num
  have hcv1 : (0.79:ℝ) * (1 - pH2O) ≤ 1 := by rw [pH2O]; norm_num
  have hbound : ∀ i : Fin compartCount, compartmentCeiling s i ≤ 1 := by
    intro i
    have hb := coefBoundsR s.ccs i
    simp only [compartmentCeiling, if_neg hne, hc]
    exact tolerated_upper _ _ _ (by linarith) (by linarith) hb.1 hb.2.2.1 hb.2.2.2.1
  have hfold : (List.finRange compartCount).foldl
      (fun acc i => max acc (compartmentCeiling s i)) (-maxFloat64) ≤ 1 := by
    apply foldl_max_le
    · linarith [two_le_maxFloat64]
    · intro x _; exact hbound x
  unfold ascentCeiling Depth
  linarith

/-- On a surface air state the NDL loop never finds a positive ceiling: it
consumes all its fuel, one StopCalc call per unit, and falls through to 60. -/
theorem ndlAux_surface (fuel : ℕ) : ∀ (s : ZhlModel) (i : ℕ),
    surfaceAirState s → ndlAux s fuel i = (60, fuel) := by
  induction fuel with
  | zero => intro s i _; rfl
  | succ f ih =>
    intro s i hs
    have hs1 : surfaceAirState (StopCalc s 1) := stopCalc_surface s hs 1
    have hle : ascentCeiling (StopCalc s 1) ≤ 0 := ascentCeiling_surface_nonpos _ hs1
    simp only [ndlAux]
    rw [if_neg (not_lt.mpr hle), ih _ _ hs1]

/-! ## NDL loop characterization -/

/-- Characterization of the GetNDL loop: the StopCalc call count never
exceeds the fuel, and the returned value is either the fallthrough 60 with
no strictly positive ceiling reached within the fuel, or i plus the first
0-based index whose post-stop ascent ceiling is strictly positive. -/
theorem ndlAux_spec (fuel : ℕ) : ∀ (s : ZhlModel) (i : ℕ),
    (ndlAux s fuel i).2 ≤ fuel ∧
    (((ndlAux s fuel i).1 = 60 ∧
        ∀ k, k < fuel → ¬ 0 < ascentCeiling (iterStop s (k + 1))) ∨
      (∃ k, k < fuel ∧ (ndlAux s fuel i).1 = i + k ∧
        0 < ascentCeiling (iterStop s (k + 1)) ∧
        ∀ j, j < k → ¬ 0 < ascentCeiling (iterStop s (j + 1)))) := by
  induction fuel with
  | zero =>
    intro s i
    exact ⟨le_refl 0, Or.inl ⟨rfl, fun k hk => absurd hk (Nat.not_lt_zero k)⟩⟩
  | succ f ih =>
    intro s i
    simp only [ndlAux]
    by_cases hpos : ascentCeiling (StopCalc s 1) > 0
    · rw [if_pos hpos]
      refine ⟨by omega, Or.inr ⟨0, Nat.succ_pos f, ?_, hpos,
        fun j hj => absurd hj (Nat.not_lt_zero j)⟩⟩
      show i = i + 0
      omega
    · rw [if_neg hpos]
      obtain ⟨hcount, hres⟩ := ih (StopCalc s 1) (i + 1)
      refine ⟨by simpa using Nat.succ_le_succ hcount, ?_⟩
      rcases hres with ⟨h60, hall⟩ | ⟨k, hk, hval, hposk, hfirst⟩
      · refine Or.inl ⟨h60, ?_⟩
        intro k hk
        cases k with
        | zero => exact hpos
        | succ k2 => exact hall k2 (by omega)
      · refine Or.inr ⟨k + 1, by omega, ?_, hposk, ?_⟩
        · show (ndlAux (StopCalc s 1) f (i + 1)).1 = i + (k + 1)
          omega
        · intro j hj
          cases j with
          | zero => exact hpos
          | succ j2 => exact hfirst j2 (by omega)

/-! ## Claim theorems (GetNDL bounds and iteration count) -/

/-- C3 counterexample: on a surface air model with elapsed time 5 minutes,
GetNDL performs 61 one-minute StopCalc iterations (the loop indices run 0
through 60 inclusive), exceeding the claimed cap of 60 iterations, and
returns 60. -/
theorem getNDL_61_iterations :
    getNDLStopCount ndlCounterModel = 61 ∧ GetNDL ndlCounterModel = 60 := by
  have hT : ndlCounterModel.currT = 5 := rfl
  have hne : ¬ ndlCounterModel.currT = 0 := by rw [hT]; norm_num
  have hsurf : surfaceAirState (copyModel ndlCounterModel) := by
    rw [copyModel_eq]
    exact ⟨rfl, rfl, rfl⟩
  have hrun := ndlAux_surface 61 (copyModel ndlCounterModel) 0 hsurf
  constructor
  · unfold getNDLStopCount
    rw [if_neg hne, hrun]
  · unfold GetNDL
    rw [if_neg hne, hrun]

/-- C3 (amended): for every model with nonzero elapsed time, GetNDL runs at
most 61 one-minute stop iterations on its private copy (loop indices 0..60
inclusive, one more than the claimed 60) and the returned value never
exceeds 60. Whenever the returned value is below 60 it is the 0-based index
of the first iteration whose ascent ceiling is strictly positive; and
whenever the returned value is 60 no iteration index below 60 has a
strictly positive ceiling — so the search does return the first
positive-ceiling index whenever that index is below 60, and 60 otherwise. -/
theorem getNDL_bounded (m : ZhlModel) (h : m.currT ≠ 0) :
    GetNDL m ≤ 60 ∧ getNDLStopCount m ≤ 61 ∧
    (GetNDL m < 60 →
      0 < ascentCeiling (iterStop (copyModel m) (GetNDL m + 1)) ∧
      ∀ j, j < GetNDL m → ¬ 0 < ascentCeiling (iterStop (copyModel m) (j + 1))) ∧
    (GetNDL m = 60 →
      ∀ j, j < 60 → ¬ 0 < ascentCeiling (iterStop (copyModel m) (j + 1))) := by
  have hspec := ndlAux_spec 61 (copyModel m) 0
  unfold GetNDL getNDLStopCount
  rw [if_neg h, if_neg h]
  obtain ⟨hcount, hres⟩ := hspec
  rcases hres with ⟨h60, hall⟩ | ⟨k, hk, hval, hpos, hfirst⟩
  · rw [h60]
    exact ⟨le_refl 60, hcount, fun hlt => absurd hlt (lt_irrefl 60),
      fun _ j hj => hall j (by omega)⟩
  · have hk60 : (ndlAux (copyModel m) 61 0).1 = k := by omega
    rw [hk60]
    exact ⟨by omega, hcount, fun _ => ⟨hpos, hfirst⟩,
      fun hkeq j hj => hfirst j (by omega)⟩

/-- Witness for C3 (amended) on the elapsed-time-5 surface air model. -/
theorem getNDL_bounded_witness :
    ndlCounterModel.currT ≠ 0 ∧
    (GetNDL ndlCounterModel ≤ 60 ∧ getNDLStopCount ndlCounterModel ≤ 61 ∧
      (GetNDL ndlCounterModel < 60 →
        0 < ascentCeiling (iterStop (copyModel ndlCounterModel)
          (GetNDL ndlCounterModel + 1)) ∧
        ∀ j, j < GetNDL ndlCounterModel →
          ¬ 0 < ascentCeiling (iterStop (copyModel ndlCounterModel) (j + 1))) ∧
      (GetNDL ndlCounterModel = 60 →
        ∀ j, j < 60 →
          ¬ 0 < ascentCeiling (iterStop (copyModel ndlCounterModel) (j + 1)))) := by
  have h : ndlCounterModel.currT ≠ 0 := by
    rw [show ndlCounterModel.currT = 5 from rfl]; norm_num
  exact ⟨h, getNDL_bounded ndlCounterModel h⟩

/-! ## Claim theorems (zero pressure delta in TransitionCalc) -/

/-- C2 (code evaluated at the failing input): at the surface, a transition
to depth 0 (zero pressure delta) with rate 0 reaches the division
(nextP - currP) / pRate with pRate = 0; the Go float quotient 0/0 is NaN,
so the duration is not the claimed zero and no zero-delta special case
exists in the code. -/
theorem transition_zero_delta_zero_rate_nan :
    Pressure 0 = (New NewAirMix ZHL16A).currP ∧
    transitionTimeChecked (New NewAirMix ZHL16A) 0 0 = none := by
  have hp : Pressure 0 = (New NewAirMix ZHL16A).currP := by
    show (0 : ℝ) / 10 + 1 = atmPressure
    rw [atmPressure]; norm_num
  have hpr : transitionPRate (New NewAirMix ZHL16A) 0 0 = 0 := by
    simp only [transitionPRate]
    rw [if_neg, zero_div]
    rintro ⟨h1, -⟩
    rw [hp] at h1
    exact lt_irrefl _ h1
  exact ⟨hp, by unfold transitionTimeChecked; rw [if_pos hpr]⟩

/-! ## Claim theorems (empty decompression schedule) -/

/-- C8: whenever firstDecompStop is strictly below 3 metres, the candidate
stop loop is skipped entirely and decompStopLengths returns the empty
sequence, for every ascent rate and fuel allowance. -/
theorem decompStopLengths_empty (m : ZhlModel) (aRate : ℝ) (ofuel ifuel : ℕ)
    (h : firstDecompStop m < 3) :
    decompStopLengths m aRate ofuel ifuel = [] := by
  unfold decompStopLengths
  cases ofuel with
  | zero => rfl
  | succ f =>
    simp only [decompOuter]
    rw [if_neg (not_le.mpr h)]

/-- Witness for C8 on a fresh air model, whose first stop is at a
non-positive depth. -/
theorem decompStopLengths_empty_witness :
    firstDecompStop (New NewAirMix ZHL16A) < 3 ∧
    decompStopLengths (New NewAirMix ZHL16A) 9 20 200 = [] := by
  have hsurf : surfaceAirState (New NewAirMix ZHL16A) := ⟨rfl, rfl, rfl⟩
  have hac : ascentCeiling (New NewAirMix ZHL16A) ≤ 0 :=
    ascentCeiling_surface_nonpos _ hsurf
  have hceil : (⌈ascentCeiling (New NewAirMix ZHL16A) / 3⌉ : ℤ) ≤ 0 := by
    rw [Int.ceil_le]
    push_cast
    linarith
  have h3 : firstDecompStop (New NewAirMix ZHL16A) < 3 := by
    unfold firstDecompStop
    have hcast : ((⌈ascentCeiling (New NewAirMix ZHL16A) / 3⌉ : ℤ) : ℝ) ≤ 0 := by
      exact_mod_cast hceil
    nlinarith
  exact ⟨h3, decompStopLengths_empty _ 9 20 200 h3⟩

/-! ## Heap frame lemmas -/

/-- Writing one heap cell does not change reads at other addresses. -/
theorem hGet_set_ne (h : List ZhlModel) (a b : ℕ) (x : ZhlModel) (hab : a ≠ b) :
    hGet (h.set b x) a = hGet h a := by
  unfold hGet
  simp only [List.getD, List.get?_eq_getElem?]
  rw [List.getElem?_set_ne (Ne.symm hab)]

/-- Allocating at the end of the heap does not change in-range reads. -/
theorem hGet_append_lt (h l2 : List ZhlModel) (a : ℕ) (ha : a < h.length) :
    hGet (h ++ l2) a = hGet h a :=
  List.getD_append _ _ _ _ ha

/-- The heap-level inner dwell loop mutates no address other than adr. -/
theorem decompInnerH_frame (fuel : ℕ) :
    ∀ (h : List ZhlModel) (adr : ℕ) (ac ns : ℝ) (n a : ℕ), a ≠ adr →
      hGet (decompInnerH h adr ac ns fuel n).1 a = hGet h a := by
  induction fuel with
  | zero => intro h adr ac ns n a _; rfl
  | succ f ih =>
    intro h adr ac ns n a hne
    simp only [decompInnerH]
    split
    · rw [ih _ _ _ _ _ _ hne]
      exact hGet_set_ne _ _ _ _ hne
    · rfl

/-- The heap-level candidate-stop loop mutates no address other than adr. -/
theorem decompOuterH_frame (ofuel : ℕ) :
    ∀ (h : List ZhlModel) (adr : ℕ) (currStop aRate : ℝ) (ifuel : ℕ)
      (stops : List ℕ) (a : ℕ), a ≠ adr →
      hGet (decompOuterH h adr currStop aRate ofuel ifuel stops).2 a = hGet h a := by
  induction ofuel with
  | zero => intro h adr currStop aRate ifuel stops a _; rfl
  | succ f ih =>
    intro h adr currStop aRate ifuel stops a hne
    simp only [decompOuterH]
    split
    · split
      · rw [ih _ _ _ _ _ _ _ hne]
        exact hGet_set_ne _ _ _ _ hne
      · rw [ih _ _ _ _ _ _ _ hne, decompInnerH_frame _ _ _ _ _ _ _ hne]
        exact hGet_set_ne _ _ _ _ hne
    · rfl

/-! ## Claim theorems (decompStopLengths does not mutate the receiver) -/

/-- C1: over the explicit heap, decompStopLengths leaves the receiver cell
untouched: the model read back at the receiver address after the call is
the model that was there before, in all 16 compartment pressures, the
ambient pressure and the elapsed time; moreover the clone the planner works
on starts as a value-identical deep copy of the receiver. -/
theorem decompStopLengthsH_frame (h : List ZhlModel) (a : ℕ) (aRate : ℝ)
    (ofuel ifuel : ℕ) (ha : a < h.length) :
    hGet (decompStopLengthsH h a aRate ofuel ifuel).2 a = hGet h a ∧
    copyModel (hGet h a) = hGet h a := by
  refine ⟨?_, copyModel_eq _⟩
  unfold decompStopLengthsH
  rw [decompOuterH_frame _ _ _ _ _ _ _ _ (Nat.ne_of_lt ha)]
  exact hGet_append_lt _ _ _ ha

/-- Witness for C1 on a one-cell heap holding a fresh air model. -/
theorem decompStopLengthsH_frame_witness :
    0 < [New NewAirMix ZHL16A].length ∧
    (hGet (decompStopLengthsH [New NewAirMix ZHL16A] 0 9 20 200).2 0 =
        hGet [New NewAirMix ZHL16A] 0 ∧
      copyModel (hGet [New NewAirMix ZHL16A] 0) = hGet [New NewAirMix ZHL16A] 0) :=
  ⟨by norm_num, decompStopLengthsH_frame [New NewAirMix ZHL16A] 0 9 20 200 (by norm_num)⟩

end DivePlanner
